import Mathlib

/-!
Shallow embedding of `src/src/connection/connection_manager.js` (the
`Pusher.ConnectionManager` prototype) as an explicit state-transition system.

The manager is a single-actor state machine driven by callbacks: public calls
(`connect`, `disconnect`, `send`, `send_event`), network reachability events
(`online` / `offline`), strategy-runner callbacks, timer expirations and
connection-level events.  Each JS method is translated to a Lean function on a
`CM` record; asynchronous collaborators (timers, strategy attempts) are
represented by fresh identifiers recorded in live-sets, so that a timer object
that is overwritten in a field while still pending remains represented, exactly
as the JS `Pusher.Timer` object would keep running.  External calls made by the
manager (emitting events, starting or aborting strategy attempts, closing or
sending on the connection) are collected in an ordered effect list.  A thrown
JS exception (e.g. calling `undefined` as a function) is modelled by the
`crashed` flag of `StepOut`, with the record holding the mutations performed
before the throw.
-/

namespace PusherCM

/-- Manager states, from the top-level doc of `connection_manager.js` plus the
`failed` state used by `connect`. -/
inductive MState
  | initialized
  | connecting
  | connected
  | disconnected
  | unavailable
  | failed
  deriving DecidableEq

/-- An established transport, abstracting the external `Connection`
collaborator: its handshake-assigned id, whether it natively supports protocol
pinging, and the boolean its `send` / `send_event` delegate returns. -/
structure Conn where
  id : Nat
  supportsPing : Bool
  sendResult : Bool
  deriving DecidableEq

/-- Action tag of a handshake result; `other` stands for any string not present
in the manager's handshake-callback table. -/
inductive HAction
  | connected
  | ssl_only
  | refused
  | backoff
  | retry
  | other (tag : String)
  deriving DecidableEq

/-- A handshake result delivered by the strategy.  For the error tags the
`connection` field is ignored (the JS object would not carry one). -/
structure Handshake where
  action : HAction
  connection : Conn
  deriving DecidableEq

/-- What a live `Pusher.Timer` will do when it fires: the retry timer runs
`disconnect(); connect()`, the unavailable timer runs
`updateState("unavailable")`, the activity timer sends a ping and arms the pong
timer, and the pong timer closes the connection. -/
inductive TKind
  | retry
  | unavailable
  | activityPing
  | activityPong
  deriving DecidableEq

/-- A live (armed, not yet fired or aborted) timer instance. -/
structure LiveTimer where
  tid : Nat
  kind : TKind
  delay : Nat
  deriving DecidableEq

/-- Events emitted through the manager's `EventsDispatcher` surface. -/
inductive Evt
  | state_change (previous current : MState)
  | named (state : MState) (data : Option Nat)
  | message (m : Nat)
  | ws_error (e : Nat)
  deriving DecidableEq

/-- Calls the manager makes on external collaborators, in program order. -/
inductive Eff
  | emit (e : Evt)
  | strategyConnect (rid retryCount : Nat)
  | runnerAbort (rid : Nat)
  | getStrategy (encrypted : Bool)
  | connClose
  | connSend (data : Nat) (result : Bool)
  | connSendEvent (name : String) (data : Nat) (channel : Option Nat) (result : Bool)
  deriving DecidableEq

/-- The `ConnectionManager` instance state: the JS fields plus the live-sets of
pending timers and strategy attempts and the fresh-id counters. -/
structure CM where
  state : MState
  connection : Option Conn
  encrypted : Bool
  strategySupported : Bool
  timelineSender : Bool
  socket_id : Option Nat
  runner : Option Nat
  retryTimer : Option Nat
  unavailableTimer : Option Nat
  activityTimer : Option Nat
  liveTimers : List LiveTimer
  liveRunners : List Nat
  nextTid : Nat
  nextRid : Nat
  unavailableTimeout : Nat
  activityTimeout : Nat
  pongTimeout : Nat
  deriving DecidableEq

/-- External world at the instant a callback runs: what
`Pusher.Network.isOnline()` returns (`none` models an unknown/null answer) and
whether the strategy `options.getStrategy` would build for a given `encrypted`
flag answers `isSupported()` with `true`. -/
structure Env where
  isOnline : Option Bool
  supportedFor : Bool → Bool

/-- Result of running one callback to completion: the manager state after it,
the external calls it made in order, and whether a JS exception escaped it. -/
structure StepOut where
  cm : CM
  effs : List Eff
  crashed : Bool
  deriving DecidableEq

/-- Constructor options (`encrypted` plus the three timeouts). -/
structure CMOptions where
  encrypted : Bool
  unavailableTimeout : Nat
  activityTimeout : Nat
  pongTimeout : Nat
  deriving DecidableEq

/-- `new Pusher.ConnectionManager(key, options)`: state `initialized`, no
connection, and `updateStrategy()` run once to cache the strategy. -/
def initCM (env : Env) (opts : CMOptions) : CM :=
  { state := MState.initialized
    connection := none
    encrypted := opts.encrypted
    strategySupported := env.supportedFor opts.encrypted
    timelineSender := false
    socket_id := none
    runner := none
    retryTimer := none
    unavailableTimer := none
    activityTimer := none
    liveTimers := []
    liveRunners := []
    nextTid := 0
    nextRid := 0
    unavailableTimeout := opts.unavailableTimeout
    activityTimeout := opts.activityTimeout
    pongTimeout := opts.pongTimeout }

/-- `updateState(newState, data)`: sets `this.state`, then emits
`state_change` and the state-named event only when the state actually
changed. -/
def updateState (newState : MState) (data : Option Nat) (cm : CM) : CM × List Eff :=
  let previousState := cm.state
  let cm1 := { cm with state := newState }
  if previousState ≠ newState then
    (cm1, [Eff.emit (Evt.state_change previousState newState),
           Eff.emit (Evt.named newState data)])
  else
    (cm1, [])

/-- `new Pusher.Timer(delay, callback)`: arms a fresh timer instance with the
next fresh id; the callback is determined by `kind`. -/
def newTimer (kind : TKind) (delay : Nat) (cm : CM) : CM :=
  { cm with
      nextTid := cm.nextTid + 1
      liveTimers := cm.liveTimers ++ [⟨cm.nextTid, kind, delay⟩] }

/-- `timer.ensureAborted()` on the timer object held in a field: removes that
instance from the live set; idempotent, and a no-op when the field was never
set (the JS guards are `if (this.retryTimer)` etc.). -/
def ensureAborted (field : Option Nat) (cm : CM) : CM :=
  match field with
  | some tid => { cm with liveTimers := cm.liveTimers.filter (fun t => t.tid != tid) }
  | none => cm

/-- `retryIn(delay)`: arms a fresh retry timer and stores it in
`this.retryTimer`, without cancelling any previous one. -/
def retryIn (delay : Nat) (cm : CM) : CM :=
  { newTimer TKind.retry delay cm with retryTimer := some cm.nextTid }

/-- `clearRetryTimer()`. -/
def clearRetryTimer (cm : CM) : CM := ensureAborted cm.retryTimer cm

/-- `setUnavailableTimer()`: arms a fresh timer for
`options.unavailableTimeout` and stores it in `this.unavailableTimer`. -/
def setUnavailableTimer (cm : CM) : CM :=
  { newTimer TKind.unavailable cm.unavailableTimeout cm with
      unavailableTimer := some cm.nextTid }

/-- `clearUnavailableTimer()`. -/
def clearUnavailableTimer (cm : CM) : CM := ensureAborted cm.unavailableTimer cm

/-- `stopActivityCheck()`. -/
def stopActivityCheck (cm : CM) : CM := ensureAborted cm.activityTimer cm

/-- `resetActivityCheck()`: stop the current activity timer, then arm a new one
for `options.activityTimeout` exactly when the connection lacks native ping
support.  Reading `this.connection.supportsPing()` on a null connection throws
(second component `true`). -/
def resetActivityCheck (cm : CM) : CM × Bool :=
  let cm1 := stopActivityCheck cm
  match cm1.connection with
  | none => (cm1, true)
  | some c =>
    if c.supportsPing = false then
      ({ newTimer TKind.activityPing cm1.activityTimeout cm1 with
           activityTimer := some cm1.nextTid }, false)
    else
      (cm1, false)

/-- `this.runner.abort()` when a runner handle is stored: removes the attempt
from the pending set (so its callback is never delivered afterwards) and
records the abort call. -/
def abortRunnerEffs (cm : CM) : CM × List Eff :=
  match cm.runner with
  | some r => ({ cm with liveRunners := cm.liveRunners.filter (fun x => x != r) },
               [Eff.runnerAbort r])
  | none => (cm, [])

/-- `send(data)`: delegates to the connection when one is held, otherwise
returns `false`.  Never mutates the manager. -/
def send (cm : CM) (data : Nat) : Bool × List Eff :=
  match cm.connection with
  | some c => (c.sendResult, [Eff.connSend data c.sendResult])
  | none => (false, [])

/-- `send_event(name, data, channel)`: delegates to the connection when one is
held, otherwise returns `false`.  Never mutates the manager. -/
def send_event (cm : CM) (name : String) (data : Nat) (channel : Option Nat) :
    Bool × List Eff :=
  match cm.connection with
  | some c => (c.sendResult, [Eff.connSendEvent name data channel c.sendResult])
  | none => (false, [])

/-- `shouldRetry()`: state is `connecting` or `connected`. -/
def shouldRetry (cm : CM) : Bool :=
  match cm.state with
  | MState.connecting => true
  | MState.connected => true
  | _ => false

/-- `disconnect()`: abort any in-flight attempt, clear the retry and
unavailable timers, stop the activity check, transition to `disconnected`, then
close and release the connection when one is held. -/
def disconnect (cm : CM) : StepOut :=
  let a := abortRunnerEffs cm
  let cm1 := clearRetryTimer a.1
  let cm2 := clearUnavailableTimer cm1
  let cm3 := stopActivityCheck cm2
  let u := updateState MState.disconnected none cm3
  match u.1.connection with
  | some _ => ⟨{ u.1 with connection := none }, a.2 ++ u.2 ++ [Eff.connClose], false⟩
  | none => ⟨u.1, a.2 ++ u.2, false⟩

/-- `connect()`: no-op when a connection is held or already `connecting`;
`failed` when the strategy is unsupported; `unavailable` when the network
monitor answers exactly `false`; otherwise transition to `connecting`,
initialize the timeline sender, start the strategy with retry count 0 and arm
the unavailable timer. -/
def connect (env : Env) (cm : CM) : StepOut :=
  if cm.connection.isSome then ⟨cm, [], false⟩
  else if cm.state = MState.connecting then ⟨cm, [], false⟩
  else if cm.strategySupported = false then
    let u := updateState MState.failed none cm
    ⟨u.1, u.2, false⟩
  else if env.isOnline = some false then
    let u := updateState MState.unavailable none cm
    ⟨u.1, u.2, false⟩
  else
    let u := updateState MState.connecting none cm
    let cm1 := { u.1 with timelineSender := true }
    let rid := cm1.nextRid
    let cm2 := { cm1 with
                   nextRid := rid + 1
                   runner := some rid
                   liveRunners := cm1.liveRunners ++ [rid] }
    let cm3 := setUnavailableTimer cm2
    ⟨cm3, u.2 ++ [Eff.strategyConnect rid 0], false⟩

/-- Dispatch `self.handshakeCallbacks[handshake.action](handshake)`.  The table
is the error-callback table extended with `connected`; an action absent from it
makes the JS lookup yield `undefined`, and calling it throws. -/
def handshakeDispatch (env : Env) (h : Handshake) (cm : CM) : StepOut :=
  match h.action with
  | HAction.connected =>
    let cm1 := clearUnavailableTimer cm
    let cm2 := { cm1 with connection := some h.connection }
    let r := resetActivityCheck cm2
    if r.2 then ⟨r.1, [], true⟩
    else
      let cm3 := { r.1 with socket_id := some h.connection.id }
      let u := updateState MState.connected none cm3
      ⟨u.1, u.2, false⟩
  | HAction.ssl_only =>
    let cm1 := { cm with encrypted := true }
    let cm2 := { cm1 with strategySupported := env.supportedFor true }
    ⟨retryIn 0 cm2, [Eff.getStrategy true], false⟩
  | HAction.refused => disconnect cm
  | HAction.backoff => ⟨retryIn 1000 cm, [], false⟩
  | HAction.retry => ⟨retryIn 0 cm, [], false⟩
  | HAction.other _ => ⟨cm, [], true⟩

/-- The strategy invoking the `connect` callback for attempt `rid` (which
consumes the pending attempt): on error the strategy is re-invoked with retry
count 0 and the new runner stored; on success `self.runner.abort()` runs and
the handshake is dispatched. -/
inductive SResult
  | err
  | ok (h : Handshake)
  deriving DecidableEq

def deliverRunner (env : Env) (rid : Nat) (res : SResult) (cm : CM) : StepOut :=
  let cm0 := { cm with liveRunners := cm.liveRunners.filter (fun x => x != rid) }
  match res with
  | SResult.err =>
    let r2 := cm0.nextRid
    ⟨{ cm0 with
         nextRid := r2 + 1
         runner := some r2
         liveRunners := cm0.liveRunners ++ [r2] },
     [Eff.strategyConnect r2 0], false⟩
  | SResult.ok h =>
    let a := abortRunnerEffs cm0
    let d := handshakeDispatch env h a.1
    ⟨d.cm, a.2 ++ d.effs, d.crashed⟩

/-- A live timer firing (it is consumed, then its callback runs). -/
def fireTimer (env : Env) (t : LiveTimer) (cm : CM) : StepOut :=
  let cm0 := { cm with liveTimers := cm.liveTimers.filter (fun u => u.tid != t.tid) }
  match t.kind with
  | TKind.retry =>
    let d := disconnect cm0
    let c := connect env d.cm
    ⟨c.cm, d.effs ++ c.effs, false⟩
  | TKind.unavailable =>
    let u := updateState MState.unavailable none cm0
    ⟨u.1, u.2, false⟩
  | TKind.activityPing =>
    let s := send_event cm0 "pusher:ping" 0 none
    ⟨{ newTimer TKind.activityPong cm0.pongTimeout cm0 with
         activityTimer := some cm0.nextTid }, s.2, false⟩
  | TKind.activityPong =>
    match cm0.connection with
    | some _ => ⟨cm0, [Eff.connClose], false⟩
    | none => ⟨cm0, [], true⟩

/-- Connection-level events, deliverable only while the callbacks are bound,
i.e. while the manager holds the connection. -/
inductive ConnEvt
  | message (m : Nat)
  | ping
  | ping_request
  | ws_error (e : Nat)
  | closed
  deriving DecidableEq

/-- The `connectionCallbacks` table. -/
def connCallback (e : ConnEvt) (cm : CM) : StepOut :=
  match e with
  | ConnEvt.message m =>
    let r := resetActivityCheck cm
    if r.2 then ⟨r.1, [], true⟩
    else ⟨r.1, [Eff.emit (Evt.message m)], false⟩
  | ConnEvt.ping =>
    let s := send_event cm "pusher:pong" 0 none
    ⟨cm, s.2, false⟩
  | ConnEvt.ping_request =>
    let s := send_event cm "pusher:ping" 0 none
    ⟨cm, s.2, false⟩
  | ConnEvt.ws_error err => ⟨cm, [Eff.emit (Evt.ws_error err)], false⟩
  | ConnEvt.closed =>
    let cm1 := { cm with connection := none }
    if shouldRetry cm1 then ⟨retryIn 1000 cm1, [], false⟩ else ⟨cm1, [], false⟩

/-- The `Pusher.Network.bind("online", ...)` callback. -/
def onlineCallback (env : Env) (cm : CM) : StepOut :=
  if cm.state = MState.unavailable then connect env cm else ⟨cm, [], false⟩

/-- The `Pusher.Network.bind("offline", ...)` callback. -/
def offlineCallback (cm : CM) : StepOut :=
  if shouldRetry cm then
    let d := disconnect cm
    let u := updateState MState.unavailable none d.cm
    ⟨u.1, d.effs ++ u.2, false⟩
  else ⟨cm, [], false⟩

/-- One externally triggered callback. -/
inductive Input
  | pconnect
  | pdisconnect
  | psend (data : Nat)
  | psend_event (name : String) (data : Nat) (channel : Option Nat)
  | online
  | offline
  | runnerResult (rid : Nat) (res : SResult)
  | timerFire (tid : Nat)
  | connEvent (e : ConnEvt)
  deriving DecidableEq

/-- An input can actually be delivered: a strategy callback only for a pending
attempt, a timer expiry only for a live timer, a connection event only while
the callbacks are bound to a held connection. -/
def validInput (cm : CM) : Input → Bool
  | Input.runnerResult rid _ => cm.liveRunners.contains rid
  | Input.timerFire tid => cm.liveTimers.any (fun t => t.tid == tid)
  | Input.connEvent _ => cm.connection.isSome
  | _ => true

/-- Run the callback for one input to completion. -/
def step (env : Env) (cm : CM) : Input → StepOut
  | Input.pconnect => connect env cm
  | Input.pdisconnect => disconnect cm
  | Input.psend d => ⟨cm, (send cm d).2, false⟩
  | Input.psend_event n d c => ⟨cm, (send_event cm n d c).2, false⟩
  | Input.online => onlineCallback env cm
  | Input.offline => offlineCallback cm
  | Input.runnerResult rid res => deliverRunner env rid res cm
  | Input.timerFire tid =>
    match cm.liveTimers.find? (fun t => t.tid == tid) with
    | some t => fireTimer env t cm
    | none => ⟨cm, [], false⟩
  | Input.connEvent e => connCallback e cm

/-- States reachable by delivering valid inputs from a freshly constructed
manager (a crashed callback leaves its partial mutations in place, and the
event loop keeps delivering callbacks, so reachability extends through
crashes). -/
inductive Reachable : CM → Prop
  | base (env : Env) (opts : CMOptions) : Reachable (initCM env opts)
  | next (env : Env) (cm : CM) (i : Input) (h : Reachable cm)
      (hv : validInput cm i = true) : Reachable (step env cm i).cm

/-- Run a list of inputs under one environment, refusing undeliverable inputs
and stopping at a crash. -/
def runInputs (env : Env) : CM → List Input → Option CM
  | cm, [] => some cm
  | cm, i :: rest =>
    if validInput cm i then
      let out := step env cm i
      if out.crashed then none else runInputs env out.cm rest
    else none

/-- Live retry-timer instances. -/
def retryLive (cm : CM) : List LiveTimer :=
  cm.liveTimers.filter (fun t => t.kind == TKind.retry)

/-- Live unavailable-timer instances. -/
def unavailLive (cm : CM) : List LiveTimer :=
  cm.liveTimers.filter (fun t => t.kind == TKind.unavailable)

/-- Live activity/pong-timer instances. -/
def activityLive (cm : CM) : List LiveTimer :=
  cm.liveTimers.filter (fun t => t.kind == TKind.activityPing || t.kind == TKind.activityPong)

/-- The manager-level events among an effect list, in order. -/
def emitted (effs : List Eff) : List Evt :=
  effs.filterMap (fun e => match e with | Eff.emit v => some v | _ => none)

/-- Timer bookkeeping invariant of reachable manager states: live timer ids
are fresh-bounded and distinct, and every live unavailable (resp.
activity/pong) timer is the instance stored in its field. -/
structure InvT (cm : CM) : Prop where
  tidBound : ∀ t ∈ cm.liveTimers, t.tid < cm.nextTid
  tidDistinct : List.Pairwise (fun a b => a.tid ≠ b.tid) cm.liveTimers
  unavailField : ∀ t ∈ cm.liveTimers, t.kind = TKind.unavailable →
      cm.unavailableTimer = some t.tid
  actField : ∀ t ∈ cm.liveTimers,
      t.kind = TKind.activityPing ∨ t.kind = TKind.activityPong →
      cm.activityTimer = some t.tid

/-- The full inductive invariant: the timer bookkeeping of `InvT` plus the
connection/state relation and the restriction of live unavailable timers to
the `connecting` state. -/
structure Inv (cm : CM) extends InvT cm : Prop where
  connState : cm.connection.isSome = true → cm.state = MState.connected
  unavailConnecting : cm.state ≠ MState.connecting →
      ∀ t ∈ cm.liveTimers, t.kind ≠ TKind.unavailable

/-- Environment where the network is reported online and every strategy is
supported. -/
def envT : Env := ⟨some true, fun _ => true⟩

/-- Environment where the unencrypted strategy is supported but the encrypted
one (built after `ssl_only`) is not. -/
def envSsl : Env := ⟨some true, fun e => !e⟩

/-- Concrete constructor options used by the concrete executions. -/
def opts0 : CMOptions := ⟨false, 50, 120, 30⟩

/-- A freshly constructed manager under `envT`. -/
def cm0 : CM := initCM envT opts0

/-- A freshly constructed manager under `envSsl`. -/
def cm0s : CM := initCM envSsl opts0

/-- A concrete connection with native ping support. -/
def connA : Conn := ⟨42, true, true⟩

/-- A concrete connection without native ping support. -/
def connB : Conn := ⟨7, false, true⟩

/-- A successful handshake carrying `connA`. -/
def hsConnected : Handshake := ⟨HAction.connected, connA⟩

/-- A `backoff` handshake result. -/
def hsBackoff : Handshake := ⟨HAction.backoff, connA⟩

/-- An `ssl_only` handshake result. -/
def hsSsl : Handshake := ⟨HAction.ssl_only, connA⟩

/-- A handshake result whose action tag is not in the callback table. -/
def hsBogus : Handshake := ⟨HAction.other "unknown_action", connA⟩

/-- The manager right after a first `connect()` under `envT`. -/
def cmAfterConnect : CM := (step envT cm0 Input.pconnect).cm

/-- The manager after `connect()` and a successful `connected` handshake. -/
def cmConnected : CM :=
  (step envT cmAfterConnect (Input.runnerResult 0 (SResult.ok hsConnected))).cm

/-- Execution refuting C1: connect, successful handshake, then the transport
closes; the `closed` callback releases the connection but never leaves state
`connected`. -/
def runC1 : Option CM :=
  runInputs envT cm0
    [Input.pconnect, Input.runnerResult 0 (SResult.ok hsConnected),
     Input.connEvent ConnEvt.closed]

/-- Execution refuting C8: an `ssl_only` handshake switches to an unsupported
encrypted strategy, the network drops (state becomes `unavailable`), and coming
back online re-invokes `connect()`, which ends in `failed`, not `connecting`. -/
def runC8 : Option CM :=
  runInputs envSsl cm0s
    [Input.pconnect, Input.runnerResult 0 (SResult.ok hsSsl),
     Input.offline, Input.online]

/-- Execution refuting C9: a `backoff` handshake arms a retry timer; the
unavailable timer then fires, the network monitor reports online, a second
attempt succeeds and the transport closes, arming a second retry timer while
the first is still live. -/
def runC9 : Option CM :=
  runInputs envT cm0
    [Input.pconnect, Input.runnerResult 0 (SResult.ok hsBackoff),
     Input.timerFire 0, Input.online,
     Input.runnerResult 1 (SResult.ok hsConnected),
     Input.connEvent ConnEvt.closed]

theorem updateState_fst (s : MState) (d : Option Nat) (cm : CM) :
    (updateState s d cm).1 = { cm with state := s } := by
  simp only [updateState]
  split <;> rfl

theorem updateState_snd_ne (s : MState) (d : Option Nat) (cm : CM)
    (h : cm.state ≠ s) :
    (updateState s d cm).2 =
      [Eff.emit (Evt.state_change cm.state s), Eff.emit (Evt.named s d)] := by
  simp [updateState, h]

theorem updateState_snd_eq (s : MState) (d : Option Nat) (cm : CM)
    (h : cm.state = s) : (updateState s d cm).2 = [] := by
  simp [updateState, h]

@[simp] theorem ensureAborted_state (f : Option Nat) (cm : CM) :
    (ensureAborted f cm).state = cm.state := by cases f <;> rfl

@[simp] theorem ensureAborted_connection (f : Option Nat) (cm : CM) :
    (ensureAborted f cm).connection = cm.connection := by cases f <;> rfl

@[simp] theorem ensureAborted_encrypted (f : Option Nat) (cm : CM) :
    (ensureAborted f cm).encrypted = cm.encrypted := by cases f <;> rfl

@[simp] theorem ensureAborted_strategySupported (f : Option Nat) (cm : CM) :
    (ensureAborted f cm).strategySupported = cm.strategySupported := by
  cases f <;> rfl

@[simp] theorem ensureAborted_timelineSender (f : Option Nat) (cm : CM) :
    (ensureAborted f cm).timelineSender = cm.timelineSender := by cases f <;> rfl

@[simp] theorem ensureAborted_socket_id (f : Option Nat) (cm : CM) :
    (ensureAborted f cm).socket_id = cm.socket_id := by cases f <;> rfl

@[simp] theorem ensureAborted_runner (f : Option Nat) (cm : CM) :
    (ensureAborted f cm).runner = cm.runner := by cases f <;> rfl

@[simp] theorem ensureAborted_retryTimer (f : Option Nat) (cm : CM) :
    (ensureAborted f cm).retryTimer = cm.retryTimer := by cases f <;> rfl

@[simp] theorem ensureAborted_unavailableTimer (f : Option Nat) (cm : CM) :
    (ensureAborted f cm).unavailableTimer = cm.unavailableTimer := by
  cases f <;> rfl

@[simp] theorem ensureAborted_activityTimer (f : Option Nat) (cm : CM) :
    (ensureAborted f cm).activityTimer = cm.activityTimer := by cases f <;> rfl

@[simp] theorem ensureAborted_liveRunners (f : Option Nat) (cm : CM) :
    (ensureAborted f cm).liveRunners = cm.liveRunners := by cases f <;> rfl

@[simp] theorem ensureAborted_nextTid (f : Option Nat) (cm : CM) :
    (ensureAborted f cm).nextTid = cm.nextTid := by cases f <;> rfl

@[simp] theorem ensureAborted_nextRid (f : Option Nat) (cm : CM) :
    (ensureAborted f cm).nextRid = cm.nextRid := by cases f <;> rfl

@[simp] theorem ensureAborted_unavailableTimeout (f : Option Nat) (cm : CM) :
    (ensureAborted f cm).unavailableTimeout = cm.unavailableTimeout := by
  cases f <;> rfl

@[simp] theorem ensureAborted_activityTimeout (f : Option Nat) (cm : CM) :
    (ensureAborted f cm).activityTimeout = cm.activityTimeout := by
  cases f <;> rfl

@[simp] theorem ensureAborted_pongTimeout (f : Option Nat) (cm : CM) :
    (ensureAborted f cm).pongTimeout = cm.pongTimeout := by cases f <;> rfl

theorem ensureAborted_mem {f : Option Nat} {cm : CM} {t : LiveTimer}
    (ht : t ∈ (ensureAborted f cm).liveTimers) : t ∈ cm.liveTimers := by
  cases f with
  | none => exact ht
  | some tid => exact List.mem_of_mem_filter ht

theorem ensureAborted_sublist (f : Option Nat) (cm : CM) :
    List.Sublist (ensureAborted f cm).liveTimers cm.liveTimers := by
  cases f with
  | none => exact List.Sublist.refl _
  | some tid => exact List.filter_sublist _

theorem ensureAborted_not_tid {tid : Nat} {cm : CM} {t : LiveTimer}
    (ht : t ∈ (ensureAborted (some tid) cm).liveTimers) : t.tid ≠ tid := by
  have h := (List.mem_filter.1 ht).2
  simpa using h

/-- `ensureAborted` on the field removes every live timer whose kind points to
that field. -/
theorem ensureAborted_kill_kind (cm : CM) (f : Option Nat) (P : TKind → Prop)
    (hf : ∀ t ∈ cm.liveTimers, P t.kind → f = some t.tid) :
    ∀ t ∈ (ensureAborted f cm).liveTimers, ¬ P t.kind := by
  intro t ht hk
  cases f with
  | none => exact Option.noConfusion (hf t (ensureAborted_mem ht) hk)
  | some tid =>
    exact ensureAborted_not_tid ht (Option.some.inj (hf t (ensureAborted_mem ht) hk)).symm

@[simp] theorem abortRunnerEffs_state (cm : CM) :
    (abortRunnerEffs cm).1.state = cm.state := by
  cases h : cm.runner <;> simp [abortRunnerEffs, h]

@[simp] theorem abortRunnerEffs_connection (cm : CM) :
    (abortRunnerEffs cm).1.connection = cm.connection := by
  cases h : cm.runner <;> simp [abortRunnerEffs, h]

@[simp] theorem abortRunnerEffs_liveTimers (cm : CM) :
    (abortRunnerEffs cm).1.liveTimers = cm.liveTimers := by
  cases h : cm.runner <;> simp [abortRunnerEffs, h]

@[simp] theorem abortRunnerEffs_nextTid (cm : CM) :
    (abortRunnerEffs cm).1.nextTid = cm.nextTid := by
  cases h : cm.runner <;> simp [abortRunnerEffs, h]

@[simp] theorem abortRunnerEffs_nextRid (cm : CM) :
    (abortRunnerEffs cm).1.nextRid = cm.nextRid := by
  cases h : cm.runner <;> simp [abortRunnerEffs, h]

@[simp] theorem abortRunnerEffs_runner (cm : CM) :
    (abortRunnerEffs cm).1.runner = cm.runner := by
  cases h : cm.runner <;> simp [abortRunnerEffs, h]

@[simp] theorem abortRunnerEffs_retryTimer (cm : CM) :
    (abortRunnerEffs cm).1.retryTimer = cm.retryTimer := by
  cases h : cm.runner <;> simp [abortRunnerEffs, h]

@[simp] theorem abortRunnerEffs_unavailableTimer (cm : CM) :
    (abortRunnerEffs cm).1.unavailableTimer = cm.unavailableTimer := by
  cases h : cm.runner <;> simp [abortRunnerEffs, h]

@[simp] theorem abortRunnerEffs_activityTimer (cm : CM) :
    (abortRunnerEffs cm).1.activityTimer = cm.activityTimer := by
  cases h : cm.runner <;> simp [abortRunnerEffs, h]

@[simp] theorem abortRunnerEffs_encrypted (cm : CM) :
    (abortRunnerEffs cm).1.encrypted = cm.encrypted := by
  cases h : cm.runner <;> simp [abortRunnerEffs, h]

@[simp] theorem abortRunnerEffs_strategySupported (cm : CM) :
    (abortRunnerEffs cm).1.strategySupported = cm.strategySupported := by
  cases h : cm.runner <;> simp [abortRunnerEffs, h]

@[simp] theorem abortRunnerEffs_unavailableTimeout (cm : CM) :
    (abortRunnerEffs cm).1.unavailableTimeout = cm.unavailableTimeout := by
  cases h : cm.runner <;> simp [abortRunnerEffs, h]

@[simp] theorem abortRunnerEffs_activityTimeout (cm : CM) :
    (abortRunnerEffs cm).1.activityTimeout = cm.activityTimeout := by
  cases h : cm.runner <;> simp [abortRunnerEffs, h]

@[simp] theorem abortRunnerEffs_pongTimeout (cm : CM) :
    (abortRunnerEffs cm).1.pongTimeout = cm.pongTimeout := by
  cases h : cm.runner <;> simp [abortRunnerEffs, h]

theorem invT_filter (cm : CM) (p : LiveTimer → Bool) (h : InvT cm) :
    InvT { cm with liveTimers := cm.liveTimers.filter p } := by
  constructor
  · intro t ht
    exact h.tidBound t (List.mem_of_mem_filter ht)
  · exact List.Pairwise.sublist (List.filter_sublist _) h.tidDistinct
  · intro t ht hk
    exact h.unavailField t (List.mem_of_mem_filter ht) hk
  · intro t ht hk
    exact h.actField t (List.mem_of_mem_filter ht) hk

theorem invT_ensureAborted (f : Option Nat) (cm : CM) (h : InvT cm) :
    InvT (ensureAborted f cm) := by
  cases f with
  | none => exact h
  | some tid => exact invT_filter cm _ h

theorem invT_abortRunnerEffs (cm : CM) (h : InvT cm) : InvT (abortRunnerEffs cm).1 := by
  constructor
  · simpa using h.tidBound
  · simpa using h.tidDistinct
  · simpa using h.unavailField
  · simpa using h.actField

theorem newTimer_tidBound (cm : CM) (k : TKind) (d : Nat) (h : InvT cm) :
    ∀ t ∈ (newTimer k d cm).liveTimers, t.tid < (newTimer k d cm).nextTid := by
  intro t ht
  simp only [newTimer] at ht ⊢
  rcases List.mem_append.1 ht with h1 | h1
  · exact Nat.lt_succ_of_lt (h.tidBound t h1)
  · rw [List.mem_singleton.1 h1]
    exact Nat.lt_succ_self _

theorem newTimer_tidDistinct (cm : CM) (k : TKind) (d : Nat) (h : InvT cm) :
    List.Pairwise (fun a b => a.tid ≠ b.tid) (newTimer k d cm).liveTimers := by
  simp only [newTimer]
  refine List.pairwise_append.2 ⟨h.tidDistinct, ?_, ?_⟩
  · simp
  · intro a ha b hb
    rw [List.mem_singleton.1 hb]
    exact Nat.ne_of_lt (h.tidBound a ha)

theorem invT_retryIn (delay : Nat) (cm : CM) (h : InvT cm) :
    InvT (retryIn delay cm) := by
  constructor
  · exact newTimer_tidBound cm TKind.retry delay h
  · exact newTimer_tidDistinct cm TKind.retry delay h
  · intro t ht hk
    rcases List.mem_append.1 ht with h1 | h1
    · exact h.unavailField t h1 hk
    · rw [List.mem_singleton.1 h1] at hk
      exact absurd hk (by simp)
  · intro t ht hk
    rcases List.mem_append.1 ht with h1 | h1
    · exact h.actField t h1 hk
    · rw [List.mem_singleton.1 h1] at hk
      rcases hk with hk | hk <;> exact absurd hk (by simp)

theorem retryIn_no_unavail (delay : Nat) (cm : CM)
    (h : ∀ t ∈ cm.liveTimers, t.kind ≠ TKind.unavailable) :
    ∀ t ∈ (retryIn delay cm).liveTimers, t.kind ≠ TKind.unavailable := by
  intro t ht
  rcases List.mem_append.1 ht with h1 | h1
  · exact h t h1
  · rw [List.mem_singleton.1 h1]
    simp

theorem inv_retryIn (delay : Nat) (cm : CM) (h : Inv cm) : Inv (retryIn delay cm) := by
  refine ⟨invT_retryIn delay cm h.toInvT, ?_, ?_⟩
  · exact h.connState
  · intro hs t ht
    exact retryIn_no_unavail delay cm (h.unavailConnecting hs) t ht

theorem inv_ensureAborted (f : Option Nat) (cm : CM) (h : Inv cm) :
    Inv (ensureAborted f cm) := by
  refine ⟨invT_ensureAborted f cm h.toInvT, ?_, ?_⟩
  · simpa using h.connState
  · intro hs t ht
    exact h.unavailConnecting (by simpa using hs) t (ensureAborted_mem ht)

theorem inv_abortRunnerEffs (cm : CM) (h : Inv cm) : Inv (abortRunnerEffs cm).1 := by
  refine ⟨invT_abortRunnerEffs cm h.toInvT, ?_, ?_⟩
  · simpa using h.connState
  · intro hs t ht
    rw [abortRunnerEffs_liveTimers] at ht
    exact h.unavailConnecting (by simpa using hs) t ht

theorem invT_setUnavailableTimer (cm : CM) (h : InvT cm)
    (hnone : ∀ t ∈ cm.liveTimers, t.kind ≠ TKind.unavailable) :
    InvT (setUnavailableTimer cm) := by
  constructor
  · exact newTimer_tidBound cm TKind.unavailable cm.unavailableTimeout h
  · exact newTimer_tidDistinct cm TKind.unavailable cm.unavailableTimeout h
  · intro t ht hk
    rcases List.mem_append.1 ht with h1 | h1
    · exact absurd hk (hnone t h1)
    · rw [List.mem_singleton.1 h1]
      rfl
  · intro t ht hk
    rcases List.mem_append.1 ht with h1 | h1
    · exact h.actField t h1 hk
    · rw [List.mem_singleton.1 h1] at hk
      rcases hk with hk | hk <;> exact absurd hk (by simp)

theorem inv_setUnavailableTimer (cm : CM) (h : Inv cm)
    (hnone : ∀ t ∈ cm.liveTimers, t.kind ≠ TKind.unavailable)
    (hst : cm.state = MState.connecting) :
    Inv (setUnavailableTimer cm) := by
  refine ⟨invT_setUnavailableTimer cm h.toInvT hnone, ?_, ?_⟩
  · exact h.connState
  · intro hs
    exact absurd hst hs

theorem invT_armActivity (cm : CM) (h : InvT cm) (k : TKind) (d : Nat)
    (hk : k = TKind.activityPing ∨ k = TKind.activityPong)
    (hnone : ∀ t ∈ cm.liveTimers,
      ¬(t.kind = TKind.activityPing ∨ t.kind = TKind.activityPong)) :
    InvT { newTimer k d cm with activityTimer := some cm.nextTid } := by
  constructor
  · exact newTimer_tidBound cm k d h
  · exact newTimer_tidDistinct cm k d h
  · intro t ht hku
    rcases List.mem_append.1 ht with h1 | h1
    · exact h.unavailField t h1 hku
    · rw [List.mem_singleton.1 h1] at hku
      rcases hk with hk2 | hk2 <;> rw [hk2] at hku <;> exact absurd hku (by simp)
  · intro t ht hka
    rcases List.mem_append.1 ht with h1 | h1
    · exact absurd hka (hnone t h1)
    · rw [List.mem_singleton.1 h1]

theorem stopActivityCheck_kill (cm : CM)
    (h5 : ∀ t ∈ cm.liveTimers,
      t.kind = TKind.activityPing ∨ t.kind = TKind.activityPong →
      cm.activityTimer = some t.tid) :
    ∀ t ∈ (stopActivityCheck cm).liveTimers,
      ¬(t.kind = TKind.activityPing ∨ t.kind = TKind.activityPong) :=
  ensureAborted_kill_kind cm cm.activityTimer
    (fun k => k = TKind.activityPing ∨ k = TKind.activityPong) h5

theorem clearUnavailableTimer_kill (cm : CM)
    (h4 : ∀ t ∈ cm.liveTimers, t.kind = TKind.unavailable →
      cm.unavailableTimer = some t.tid) :
    ∀ t ∈ (clearUnavailableTimer cm).liveTimers, t.kind ≠ TKind.unavailable :=
  ensureAborted_kill_kind cm cm.unavailableTimer
    (fun k => k = TKind.unavailable) h4

theorem clearRetryTimer_kill (cm : CM)
    (hr : ∀ t ∈ cm.liveTimers, t.kind = TKind.retry → cm.retryTimer = some t.tid) :
    ∀ t ∈ (clearRetryTimer cm).liveTimers, t.kind ≠ TKind.retry :=
  ensureAborted_kill_kind cm cm.retryTimer (fun k => k = TKind.retry) hr

theorem resetActivityCheck_eqn_none (cm : CM) (hc : cm.connection = none) :
    resetActivityCheck cm = (stopActivityCheck cm, true) := by
  unfold resetActivityCheck
  simp [stopActivityCheck, hc]

theorem resetActivityCheck_eqn_ping (cm : CM) (c : Conn) (hc : cm.connection = some c)
    (hp : c.supportsPing = true) :
    resetActivityCheck cm = (stopActivityCheck cm, false) := by
  unfold resetActivityCheck
  simp [stopActivityCheck, hc, hp]

theorem resetActivityCheck_eqn_noping (cm : CM) (c : Conn)
    (hc : cm.connection = some c) (hp : c.supportsPing = false) :
    resetActivityCheck cm =
      ({ newTimer TKind.activityPing cm.activityTimeout (stopActivityCheck cm) with
           activityTimer := some cm.nextTid }, false) := by
  unfold resetActivityCheck
  simp [stopActivityCheck, hc, hp, newTimer]

theorem invT_resetActivityCheck (cm : CM) (h : InvT cm) :
    InvT (resetActivityCheck cm).1 := by
  have h1 : InvT (stopActivityCheck cm) := invT_ensureAborted _ _ h
  have hnone := stopActivityCheck_kill cm h.actField
  cases hc : cm.connection with
  | none =>
    rw [resetActivityCheck_eqn_none cm hc]
    exact h1
  | some c =>
    cases hp : c.supportsPing with
    | true =>
      rw [resetActivityCheck_eqn_ping cm c hc hp]
      exact h1
    | false =>
      have hnt : (stopActivityCheck cm).nextTid = cm.nextTid := by
        simp [stopActivityCheck]
      rw [resetActivityCheck_eqn_noping cm c hc hp, ← hnt]
      exact invT_armActivity _ h1 _ _ (Or.inl rfl) hnone

@[simp] theorem resetActivityCheck_state (cm : CM) :
    (resetActivityCheck cm).1.state = cm.state := by
  cases hc : cm.connection with
  | none =>
    rw [resetActivityCheck_eqn_none cm hc]
    simp [stopActivityCheck]
  | some c =>
    cases hp : c.supportsPing with
    | true =>
      rw [resetActivityCheck_eqn_ping cm c hc hp]
      simp [stopActivityCheck]
    | false =>
      rw [resetActivityCheck_eqn_noping cm c hc hp]
      simp [newTimer, stopActivityCheck]

@[simp] theorem resetActivityCheck_connection (cm : CM) :
    (resetActivityCheck cm).1.connection = cm.connection := by
  cases hc : cm.connection with
  | none =>
    rw [resetActivityCheck_eqn_none cm hc]
    simpa [stopActivityCheck] using hc
  | some c =>
    cases hp : c.supportsPing with
    | true =>
      rw [resetActivityCheck_eqn_ping cm c hc hp]
      simpa [stopActivityCheck] using hc
    | false =>
      rw [resetActivityCheck_eqn_noping cm c hc hp]
      simpa [newTimer, stopActivityCheck] using hc

theorem resetActivityCheck_mem {cm : CM} {t : LiveTimer}
    (ht : t ∈ (resetActivityCheck cm).1.liveTimers) :
    t ∈ cm.liveTimers ∨ t.kind = TKind.activityPing := by
  cases hc : cm.connection with
  | none =>
    rw [resetActivityCheck_eqn_none cm hc] at ht
    exact Or.inl (ensureAborted_mem ht)
  | some c =>
    cases hp : c.supportsPing with
    | true =>
      rw [resetActivityCheck_eqn_ping cm c hc hp] at ht
      exact Or.inl (ensureAborted_mem ht)
    | false =>
      rw [resetActivityCheck_eqn_noping cm c hc hp] at ht
      rcases (by simpa [newTimer, stopActivityCheck] using ht :
          t ∈ (ensureAborted cm.activityTimer cm).liveTimers ∨
          t = ⟨cm.nextTid, TKind.activityPing, cm.activityTimeout⟩) with h1 | h1
      · exact Or.inl (ensureAborted_mem h1)
      · rw [h1]
        exact Or.inr rfl

theorem inv_resetActivityCheck (cm : CM) (h : Inv cm) :
    Inv (resetActivityCheck cm).1 := by
  refine ⟨invT_resetActivityCheck cm h.toInvT, ?_, ?_⟩
  · rw [resetActivityCheck_connection cm, resetActivityCheck_state cm]
    exact h.connState
  · intro hs t ht
    rw [resetActivityCheck_state cm] at hs
    rcases resetActivityCheck_mem ht with h1 | h1
    · exact h.unavailConnecting hs t h1
    · rw [h1]
      simp

theorem disconnect_connection (cm : CM) : (disconnect cm).cm.connection = none := by
  simp only [disconnect, updateState_fst]
  split
  · rfl
  · next heq => exact heq

theorem disconnect_state (cm : CM) :
    (disconnect cm).cm.state = MState.disconnected := by
  simp only [disconnect, updateState_fst]
  split <;> rfl

theorem disconnect_nextTid (cm : CM) : (disconnect cm).cm.nextTid = cm.nextTid := by
  simp only [disconnect, updateState_fst]
  split <;> simp [stopActivityCheck, clearUnavailableTimer, clearRetryTimer]

theorem disconnect_mem {cm : CM} {t : LiveTimer}
    (ht : t ∈ (disconnect cm).cm.liveTimers) : t ∈ cm.liveTimers := by
  simp only [disconnect, updateState_fst] at ht
  have h2 : t ∈ (stopActivityCheck (clearUnavailableTimer
      (clearRetryTimer (abortRunnerEffs cm).1))).liveTimers := by
    split at ht
    · exact ht
    · exact ht
  have h3 := ensureAborted_mem (ensureAborted_mem (ensureAborted_mem h2))
  simpa using h3

theorem disconnect_no_unavail (cm : CM) (h : Inv cm) :
    ∀ t ∈ (disconnect cm).cm.liveTimers, t.kind ≠ TKind.unavailable := by
  intro t ht
  have ha : Inv (abortRunnerEffs cm).1 := inv_abortRunnerEffs cm h
  have h2 : Inv (clearRetryTimer (abortRunnerEffs cm).1) := inv_ensureAborted _ _ ha
  have hnu := clearUnavailableTimer_kill _ h2.unavailField
  simp only [disconnect, updateState_fst] at ht
  have h3 : t ∈ (stopActivityCheck (clearUnavailableTimer
      (clearRetryTimer (abortRunnerEffs cm).1))).liveTimers := by
    split at ht
    · exact ht
    · exact ht
  exact hnu t (ensureAborted_mem h3)

theorem disconnect_no_act (cm : CM) (h : Inv cm) :
    ∀ t ∈ (disconnect cm).cm.liveTimers,
      ¬(t.kind = TKind.activityPing ∨ t.kind = TKind.activityPong) := by
  intro t ht
  have ha : Inv (abortRunnerEffs cm).1 := inv_abortRunnerEffs cm h
  have h2 : Inv (clearRetryTimer (abortRunnerEffs cm).1) := inv_ensureAborted _ _ ha
  have h3 : Inv (clearUnavailableTimer (clearRetryTimer (abortRunnerEffs cm).1)) :=
    inv_ensureAborted _ _ h2
  have hna := stopActivityCheck_kill _ h3.actField
  simp only [disconnect, updateState_fst] at ht
  have h4 : t ∈ (stopActivityCheck (clearUnavailableTimer
      (clearRetryTimer (abortRunnerEffs cm).1))).liveTimers := by
    split at ht
    · exact ht
    · exact ht
  exact hna t h4

theorem inv_disconnect (cm : CM) (h : Inv cm) : Inv (disconnect cm).cm := by
  have ha : Inv (abortRunnerEffs cm).1 := inv_abortRunnerEffs cm h
  have h2 : Inv (clearRetryTimer (abortRunnerEffs cm).1) := inv_ensureAborted _ _ ha
  have h3 : Inv (clearUnavailableTimer (clearRetryTimer (abortRunnerEffs cm).1)) :=
    inv_ensureAborted _ _ h2
  have h4 : Inv (stopActivityCheck (clearUnavailableTimer
      (clearRetryTimer (abortRunnerEffs cm).1))) := inv_ensureAborted _ _ h3
  have hnu := disconnect_no_unavail cm h
  have hconn := disconnect_connection cm
  have hmem : ∀ {t : LiveTimer}, t ∈ (disconnect cm).cm.liveTimers →
      t ∈ (stopActivityCheck (clearUnavailableTimer
        (clearRetryTimer (abortRunnerEffs cm).1))).liveTimers := by
    intro t ht
    simp only [disconnect, updateState_fst] at ht
    split at ht
    · exact ht
    · exact ht
  have hlt : (disconnect cm).cm.liveTimers = (stopActivityCheck (clearUnavailableTimer
      (clearRetryTimer (abortRunnerEffs cm).1))).liveTimers := by
    simp only [disconnect, updateState_fst]
    split <;> rfl
  refine ⟨⟨?_, ?_, ?_, ?_⟩, ?_, ?_⟩
  · intro t ht
    have hb := h4.tidBound t (hmem ht)
    rw [disconnect_nextTid cm]
    simpa [stopActivityCheck, clearUnavailableTimer, clearRetryTimer] using hb
  · rw [hlt]
    exact h4.tidDistinct
  · intro t ht hk
    exact absurd hk (hnu t ht)
  · intro t ht hk
    exact absurd hk (disconnect_no_act cm h t ht)
  · intro hi
    rw [hconn] at hi
    simp at hi
  · intro _ t ht
    exact hnu t ht

theorem inv_connect (env : Env) (cm : CM) (h : Inv cm) : Inv (connect env cm).cm := by
  unfold connect
  by_cases hc : cm.connection.isSome = true
  · rw [if_pos hc]
    exact h
  · rw [if_neg hc]
    by_cases hst : cm.state = MState.connecting
    · rw [if_pos hst]
      exact h
    · rw [if_neg hst]
      by_cases hsup : cm.strategySupported = false
      · rw [if_pos hsup]
        simp only [updateState_fst]
        refine ⟨⟨h.tidBound, h.tidDistinct, h.unavailField, h.actField⟩, ?_, ?_⟩
        · intro hi
          exact absurd hi hc
        · intro _ t ht
          exact h.unavailConnecting hst t ht
      · rw [if_neg hsup]
        by_cases hoff : env.isOnline = some false
        · rw [if_pos hoff]
          simp only [updateState_fst]
          refine ⟨⟨h.tidBound, h.tidDistinct, h.unavailField, h.actField⟩, ?_, ?_⟩
          · intro hi
            exact absurd hi hc
          · intro _ t ht
            exact h.unavailConnecting hst t ht
        · rw [if_neg hoff]
          simp only [updateState_fst]
          have hcm2 : Inv { cm with
              state := MState.connecting
              timelineSender := true
              nextRid := cm.nextRid + 1
              runner := some cm.nextRid
              liveRunners := cm.liveRunners ++ [cm.nextRid] } := by
            refine ⟨⟨h.tidBound, h.tidDistinct, h.unavailField, h.actField⟩, ?_, ?_⟩
            · intro hi
              exact absurd hi hc
            · intro hs
              exact absurd rfl hs
          exact inv_setUnavailableTimer _ hcm2
            (fun t ht => h.unavailConnecting hst t ht) rfl

theorem inv_handshakeDispatch (env : Env) (hs : Handshake) (cm : CM) (h : Inv cm) :
    Inv (handshakeDispatch env hs cm).cm := by
  obtain ⟨act, conn⟩ := hs
  cases act with
  | connected =>
    simp only [handshakeDispatch]
    have h1 : Inv (clearUnavailableTimer cm) := inv_ensureAborted _ _ h
    have hnu1 := clearUnavailableTimer_kill cm h.unavailField
    have hT2 : InvT { clearUnavailableTimer cm with connection := some conn } :=
      ⟨h1.tidBound, h1.tidDistinct, h1.unavailField, h1.actField⟩
    have hr2 : (resetActivityCheck
        { clearUnavailableTimer cm with connection := some conn }).2 = false := by
      cases hp : conn.supportsPing with
      | true => rw [resetActivityCheck_eqn_ping _ conn rfl hp]
      | false => rw [resetActivityCheck_eqn_noping _ conn rfl hp]
    have hT : InvT (resetActivityCheck
        { clearUnavailableTimer cm with connection := some conn }).1 :=
      invT_resetActivityCheck _ hT2
    have hnures : ∀ t ∈ (resetActivityCheck
        { clearUnavailableTimer cm with connection := some conn }).1.liveTimers,
        t.kind ≠ TKind.unavailable := by
      intro t ht
      rcases resetActivityCheck_mem ht with h2 | h2
      · exact hnu1 t h2
      · rw [h2]
        simp
    rw [hr2]
    rw [if_neg Bool.false_ne_true]
    simp only [updateState_fst]
    exact ⟨⟨hT.tidBound, hT.tidDistinct, hT.unavailField, hT.actField⟩,
      fun _ => rfl, fun _ t ht => hnures t ht⟩
  | ssl_only =>
    simp only [handshakeDispatch]
    exact inv_retryIn 0 _ ⟨⟨h.tidBound, h.tidDistinct, h.unavailField, h.actField⟩,
      h.connState, fun hs2 t ht => h.unavailConnecting hs2 t ht⟩
  | refused =>
    simp only [handshakeDispatch]
    exact inv_disconnect cm h
  | backoff =>
    simp only [handshakeDispatch]
    exact inv_retryIn 1000 cm h
  | retry =>
    simp only [handshakeDispatch]
    exact inv_retryIn 0 cm h
  | other tag =>
    simp only [handshakeDispatch]
    exact h

theorem inv_deliverRunner (env : Env) (rid : Nat) (res : SResult) (cm : CM)
    (h : Inv cm) : Inv (deliverRunner env rid res cm).cm := by
  have h0 : Inv { cm with liveRunners := cm.liveRunners.filter (fun x => x != rid) } :=
    ⟨⟨h.tidBound, h.tidDistinct, h.unavailField, h.actField⟩, h.connState,
     fun hs t ht => h.unavailConnecting hs t ht⟩
  cases res with
  | err =>
    simp only [deliverRunner]
    exact ⟨⟨h0.tidBound, h0.tidDistinct, h0.unavailField, h0.actField⟩, h0.connState,
      fun hs t ht => h0.unavailConnecting hs t ht⟩
  | ok hs =>
    simp only [deliverRunner]
    exact inv_handshakeDispatch env hs _ (inv_abortRunnerEffs _ h0)

theorem inv_fireTimer (env : Env) (t : LiveTimer) (cm : CM) (h : Inv cm)
    (ht : t ∈ cm.liveTimers) : Inv (fireTimer env t cm).cm := by
  have hf : Inv { cm with liveTimers := cm.liveTimers.filter (fun u => u.tid != t.tid) } := by
    refine ⟨invT_filter cm _ h.toInvT, h.connState, ?_⟩
    intro hs u hu
    exact h.unavailConnecting hs u (List.mem_of_mem_filter hu)
  cases hk : t.kind with
  | retry =>
    simp only [fireTimer, hk]
    exact inv_connect env _ (inv_disconnect _ hf)
  | unavailable =>
    simp only [fireTimer, hk]
    have hstate : cm.state = MState.connecting := by
      by_contra hs
      exact h.unavailConnecting hs t ht hk
    have hconn : cm.connection.isSome = false := by
      cases hcc : cm.connection with
      | none => rfl
      | some c =>
        have h2 := h.connState (by rw [hcc]; rfl)
        rw [hstate] at h2
        exact absurd h2 (by simp)
    simp only [updateState_fst]
    refine ⟨⟨hf.tidBound, hf.tidDistinct, hf.unavailField, hf.actField⟩, ?_, ?_⟩
    · intro hi
      simp [hconn] at hi
    · intro _ u hu hku
      have h1 := h.unavailField u (List.mem_of_mem_filter hu) hku
      have h2 := h.unavailField t ht hk
      have h3 : u.tid = t.tid := Option.some.inj (h1.symm.trans h2)
      have h4 := (List.mem_filter.1 hu).2
      rw [h3] at h4
      simp at h4
  | activityPing =>
    simp only [fireTimer, hk]
    have hnone : ∀ u ∈ cm.liveTimers.filter (fun u => u.tid != t.tid),
        ¬(u.kind = TKind.activityPing ∨ u.kind = TKind.activityPong) := by
      intro u hu hku
      have h1 := h.actField u (List.mem_of_mem_filter hu) hku
      have h2 := h.actField t ht (Or.inl hk)
      have h3 : u.tid = t.tid := Option.some.inj (h1.symm.trans h2)
      have h4 := (List.mem_filter.1 hu).2
      rw [h3] at h4
      simp at h4
    refine ⟨invT_armActivity _ (invT_filter cm _ h.toInvT) TKind.activityPong _
      (Or.inr rfl) hnone, ?_, ?_⟩
    · exact h.connState
    · intro hs u hu
      rcases List.mem_append.1 hu with h1 | h1
      · exact h.unavailConnecting hs u (List.mem_of_mem_filter h1)
      · rw [List.mem_singleton.1 h1]
        simp
  | activityPong =>
    simp only [fireTimer, hk]
    split
    · exact hf
    · exact hf

theorem inv_connCallback (e : ConnEvt) (cm : CM) (h : Inv cm) :
    Inv (connCallback e cm).cm := by
  cases e with
  | message m =>
    simp only [connCallback]
    split
    · exact inv_resetActivityCheck cm h
    · exact inv_resetActivityCheck cm h
  | ping =>
    exact h
  | ping_request =>
    exact h
  | ws_error e2 =>
    exact h
  | closed =>
    simp only [connCallback]
    have h1 : Inv { cm with connection := none } := by
      refine ⟨⟨h.tidBound, h.tidDistinct, h.unavailField, h.actField⟩, ?_, ?_⟩
      · intro hi
        simp at hi
      · intro hs t ht
        exact h.unavailConnecting hs t ht
    split
    · exact inv_retryIn 1000 _ h1
    · exact h1

theorem inv_onlineCallback (env : Env) (cm : CM) (h : Inv cm) :
    Inv (onlineCallback env cm).cm := by
  unfold onlineCallback
  split
  · exact inv_connect env cm h
  · exact h

theorem inv_offlineCallback (cm : CM) (h : Inv cm) :
    Inv (offlineCallback cm).cm := by
  unfold offlineCallback
  split
  · simp only [updateState_fst]
    have hd := inv_disconnect cm h
    have hnu := disconnect_no_unavail cm h
    refine ⟨⟨hd.tidBound, hd.tidDistinct, hd.unavailField, hd.actField⟩, ?_, ?_⟩
    · intro hi
      simp [disconnect_connection cm] at hi
    · intro _ t ht
      exact hnu t ht
  · exact h

theorem inv_step (env : Env) (cm : CM) (i : Input) (h : Inv cm) :
    Inv (step env cm i).cm := by
  cases i with
  | pconnect => exact inv_connect env cm h
  | pdisconnect => exact inv_disconnect cm h
  | psend d => exact h
  | psend_event n d c => exact h
  | online => exact inv_onlineCallback env cm h
  | offline => exact inv_offlineCallback cm h
  | runnerResult rid res => exact inv_deliverRunner env rid res cm h
  | timerFire tid =>
    simp only [step]
    cases hfind : cm.liveTimers.find? (fun t => t.tid == tid) with
    | none => exact h
    | some t => exact inv_fireTimer env t cm h (List.mem_of_find?_eq_some hfind)
  | connEvent e => exact inv_connCallback e cm h

theorem inv_init (env : Env) (opts : CMOptions) : Inv (initCM env opts) := by
  refine ⟨⟨?_, ?_, ?_, ?_⟩, ?_, ?_⟩ <;> simp [initCM]

/-- Every reachable manager state satisfies the inductive invariant. -/
theorem reachable_inv (cm : CM) (h : Reachable cm) : Inv cm := by
  induction h with
  | base env opts => exact inv_init env opts
  | next env cm2 i h2 hv ih => exact inv_step env cm2 i ih

theorem length_le_one_of_pairwise_eq {l : List LiveTimer} {v : Nat}
    (hp : List.Pairwise (fun a b => a.tid ≠ b.tid) l)
    (ha : ∀ t ∈ l, t.tid = v) : l.length ≤ 1 := by
  cases l with
  | nil => simp
  | cons a l2 =>
    cases l2 with
    | nil => simp
    | cons b l3 =>
      exfalso
      have hab := (List.pairwise_cons.1 hp).1 b (by simp)
      have h1 := ha a (by simp)
      have h2 := ha b (by simp)
      exact hab (h1.trans h2.symm)

theorem unavailLive_le_one (cm : CM) (h : Inv cm) : (unavailLive cm).length ≤ 1 := by
  cases hu : cm.unavailableTimer with
  | none =>
    have hempty : unavailLive cm = [] := by
      rw [List.eq_nil_iff_forall_not_mem]
      intro t ht
      have h1 := List.mem_filter.1 ht
      have hk : t.kind = TKind.unavailable := by simpa using h1.2
      have h2 := h.unavailField t h1.1 hk
      rw [hu] at h2
      exact Option.noConfusion h2
    rw [hempty]
    simp
  | some v =>
    apply length_le_one_of_pairwise_eq
      (List.Pairwise.sublist (List.filter_sublist _) h.tidDistinct)
    intro t ht
    have h1 := List.mem_filter.1 ht
    have hk : t.kind = TKind.unavailable := by simpa using h1.2
    have h2 := h.unavailField t h1.1 hk
    rw [hu] at h2
    exact (Option.some.inj h2).symm

theorem activityLive_le_one (cm : CM) (h : Inv cm) :
    (activityLive cm).length ≤ 1 := by
  cases hu : cm.activityTimer with
  | none =>
    have hempty : activityLive cm = [] := by
      rw [List.eq_nil_iff_forall_not_mem]
      intro t ht
      have h1 := List.mem_filter.1 ht
      have hk : t.kind = TKind.activityPing ∨ t.kind = TKind.activityPong := by
        simpa using h1.2
      have h2 := h.actField t h1.1 hk
      rw [hu] at h2
      exact Option.noConfusion h2
    rw [hempty]
    simp
  | some v =>
    apply length_le_one_of_pairwise_eq
      (List.Pairwise.sublist (List.filter_sublist _) h.tidDistinct)
    intro t ht
    have h1 := List.mem_filter.1 ht
    have hk : t.kind = TKind.activityPing ∨ t.kind = TKind.activityPong := by
      simpa using h1.2
    have h2 := h.actField t h1.1 hk
    rw [hu] at h2
    exact (Option.some.inj h2).symm

theorem retryLive_nil (cm : CM) (h : ∀ t ∈ cm.liveTimers, t.kind ≠ TKind.retry) :
    retryLive cm = [] := by
  rw [retryLive, List.filter_eq_nil_iff]
  intro t ht
  simpa using h t ht

theorem retryLive_retryIn (delay : Nat) (cm : CM)
    (h : ∀ t ∈ cm.liveTimers, t.kind ≠ TKind.retry) :
    retryLive (retryIn delay cm) = [⟨cm.nextTid, TKind.retry, delay⟩] := by
  have h0 : List.filter (fun t => t.kind == TKind.retry) cm.liveTimers = [] :=
    retryLive_nil cm h
  simp only [retryLive, retryIn, newTimer]
  rw [List.filter_append, h0]
  simp

theorem disconnect_no_retry (cm : CM)
    (h : ∀ t ∈ cm.liveTimers, t.kind ≠ TKind.retry) :
    ∀ t ∈ (disconnect cm).cm.liveTimers, t.kind ≠ TKind.retry := by
  intro t ht
  exact h t (disconnect_mem ht)

theorem disconnect_crashed (cm : CM) : (disconnect cm).crashed = false := by
  simp only [disconnect, updateState_fst]
  split <;> rfl

theorem abortRunnerEffs_eqn (cm : CM) (r : Nat) (hr : cm.runner = some r) :
    abortRunnerEffs cm =
      ({ cm with liveRunners := cm.liveRunners.filter (fun x => x != r) },
       [Eff.runnerAbort r]) := by
  simp [abortRunnerEffs, hr]

/-- C4: each recognized error tag triggers exactly its table's policy:
`ssl_only` forces the encrypted flag, refreshes the strategy and schedules a
zero-delay retry; `refused` performs a clean disconnect ending in
`disconnected` with no retry timer armed and nothing thrown; `backoff`
(delivered through the strategy callback for the in-flight attempt) aborts
that attempt in the same step, schedules exactly one retry after 1000 ms and
starts no new attempt yet; `retry` schedules a zero-delay retry.  The
hypotheses say a runner handle is stored (always true when the callback runs)
and no stray retry timer is live. -/
theorem claim4_error_policies (env : Env) (cm : CM) (rid r : Nat) (conn : Conn)
    (hr : cm.runner = some r)
    (hnr : ∀ t ∈ cm.liveTimers, t.kind ≠ TKind.retry) :
    ((handshakeDispatch env ⟨HAction.ssl_only, conn⟩ cm).cm.encrypted = true ∧
     (handshakeDispatch env ⟨HAction.ssl_only, conn⟩ cm).cm.strategySupported =
       env.supportedFor true ∧
     (handshakeDispatch env ⟨HAction.ssl_only, conn⟩ cm).effs = [Eff.getStrategy true] ∧
     retryLive (handshakeDispatch env ⟨HAction.ssl_only, conn⟩ cm).cm =
       [⟨cm.nextTid, TKind.retry, 0⟩]) ∧
    ((handshakeDispatch env ⟨HAction.refused, conn⟩ cm).cm.state =
       MState.disconnected ∧
     retryLive (handshakeDispatch env ⟨HAction.refused, conn⟩ cm).cm = [] ∧
     (handshakeDispatch env ⟨HAction.refused, conn⟩ cm).crashed = false) ∧
    ((step env cm (Input.runnerResult rid (SResult.ok ⟨HAction.backoff, conn⟩))).effs =
       [Eff.runnerAbort r] ∧
     r ∉ (step env cm (Input.runnerResult rid
       (SResult.ok ⟨HAction.backoff, conn⟩))).cm.liveRunners ∧
     retryLive (step env cm (Input.runnerResult rid
       (SResult.ok ⟨HAction.backoff, conn⟩))).cm =
       [⟨cm.nextTid, TKind.retry, 1000⟩]) ∧
    retryLive (handshakeDispatch env ⟨HAction.retry, conn⟩ cm).cm =
      [⟨cm.nextTid, TKind.retry, 0⟩] := by
  have hr0 : ({ cm with liveRunners :=
      cm.liveRunners.filter (fun x => x != rid) } : CM).runner = some r := hr
  refine ⟨⟨rfl, rfl, rfl, ?_⟩, ⟨?_, ?_, ?_⟩, ⟨?_, ?_, ?_⟩, ?_⟩
  · exact retryLive_retryIn 0 _ (fun t ht => hnr t ht)
  · exact disconnect_state cm
  · exact retryLive_nil _ (disconnect_no_retry cm hnr)
  · exact disconnect_crashed cm
  · simp only [step, deliverRunner, abortRunnerEffs_eqn _ r hr0, handshakeDispatch]
    simp
  · simp only [step, deliverRunner, abortRunnerEffs_eqn _ r hr0, handshakeDispatch]
    intro hmem
    have h1 := (List.mem_filter.1 hmem).2
    simp at h1
  · simp only [step, deliverRunner, abortRunnerEffs_eqn _ r hr0, handshakeDispatch]
    exact retryLive_retryIn 1000 _ (fun t ht => hnr t ht)
  · exact retryLive_retryIn 0 _ (fun t ht => hnr t ht)

/-- Witness for C4 at a concrete state with a pending attempt and no live
retry timer. -/
theorem claim4_witness :
    retryLive (handshakeDispatch envT ⟨HAction.retry, connA⟩ cmAfterConnect).cm =
      [⟨cmAfterConnect.nextTid, TKind.retry, 0⟩] :=
  (claim4_error_policies envT cmAfterConnect 0 0 connA (by decide) (by decide)).2.2.2

theorem activityLive_nil (cm : CM)
    (h : ∀ t ∈ cm.liveTimers,
      ¬(t.kind = TKind.activityPing ∨ t.kind = TKind.activityPong)) :
    activityLive cm = [] := by
  rw [activityLive, List.filter_eq_nil_iff]
  intro t ht
  simpa using h t ht

/-- C7: the heartbeat cycle.  On adopting a Connection and on every inbound
message the stored activity timer is cancelled and a fresh `activityTimeout`
timer is armed exactly when the Connection lacks native ping support; when the
activity timer fires, a `pusher:ping` event is sent and a `pongTimeout` timer
is armed; when the pong timer fires with a Connection held, the Connection is
closed exactly once (a single `close` call); any inbound message restarts the
cycle (the message case below is the restart). -/
theorem claim7_heartbeat (env : Env) (cm : CM) (c conn2 : Conn) (m tid dl : Nat)
    (hact : ∀ t ∈ cm.liveTimers,
      t.kind = TKind.activityPing ∨ t.kind = TKind.activityPong →
      cm.activityTimer = some t.tid) :
    (conn2.supportsPing = true →
      activityLive (handshakeDispatch env ⟨HAction.connected, conn2⟩ cm).cm = []) ∧
    (conn2.supportsPing = false →
      activityLive (handshakeDispatch env ⟨HAction.connected, conn2⟩ cm).cm =
        [⟨cm.nextTid, TKind.activityPing, cm.activityTimeout⟩] ∧
      (handshakeDispatch env ⟨HAction.connected, conn2⟩ cm).cm.activityTimer =
        some cm.nextTid) ∧
    (cm.connection = some c → c.supportsPing = true →
      connCallback (ConnEvt.message m) cm =
        ⟨stopActivityCheck cm, [Eff.emit (Evt.message m)], false⟩) ∧
    (cm.connection = some c → c.supportsPing = false →
      connCallback (ConnEvt.message m) cm =
        ⟨{ newTimer TKind.activityPing cm.activityTimeout (stopActivityCheck cm) with
             activityTimer := some cm.nextTid },
         [Eff.emit (Evt.message m)], false⟩) ∧
    (cm.liveTimers.find? (fun u => u.tid == tid) =
        some ⟨tid, TKind.activityPing, dl⟩ →
      cm.connection = some c →
      step env cm (Input.timerFire tid) =
        ⟨{ newTimer TKind.activityPong cm.pongTimeout
             { cm with liveTimers := cm.liveTimers.filter (fun u => u.tid != tid) } with
             activityTimer := some cm.nextTid },
         [Eff.connSendEvent "pusher:ping" 0 none c.sendResult], false⟩) ∧
    (cm.liveTimers.find? (fun u => u.tid == tid) =
        some ⟨tid, TKind.activityPong, dl⟩ →
      cm.connection = some c →
      step env cm (Input.timerFire tid) =
        ⟨{ cm with liveTimers := cm.liveTimers.filter (fun u => u.tid != tid) },
         [Eff.connClose], false⟩) := by
  have hact1 : ∀ t ∈ ({ clearUnavailableTimer cm with
      connection := some conn2 } : CM).liveTimers,
      t.kind = TKind.activityPing ∨ t.kind = TKind.activityPong →
      ({ clearUnavailableTimer cm with connection := some conn2 } : CM).activityTimer
        = some t.tid := by
    intro t ht hk
    have ht2 : t ∈ (clearUnavailableTimer cm).liveTimers := ht
    have h2 := hact t (ensureAborted_mem ht2) hk
    simpa [clearUnavailableTimer] using h2
  have hkill := stopActivityCheck_kill _ hact1
  refine ⟨?_, ?_, ?_, ?_, ?_, ?_⟩
  · intro hp
    simp only [handshakeDispatch]
    rw [resetActivityCheck_eqn_ping _ conn2 rfl hp]
    simp only [updateState_fst]
    exact activityLive_nil _ hkill
  · intro hp
    simp only [handshakeDispatch]
    rw [resetActivityCheck_eqn_noping _ conn2 rfl hp]
    simp only [updateState_fst]
    have h0 : List.filter
        (fun t => t.kind == TKind.activityPing || t.kind == TKind.activityPong)
        (stopActivityCheck { clearUnavailableTimer cm with
          connection := some conn2 }).liveTimers = [] :=
      activityLive_nil _ hkill
    constructor
    · show List.filter
          (fun t => t.kind == TKind.activityPing || t.kind == TKind.activityPong)
          ((stopActivityCheck { clearUnavailableTimer cm with
              connection := some conn2 }).liveTimers ++
            [⟨(stopActivityCheck { clearUnavailableTimer cm with
                connection := some conn2 }).nextTid, TKind.activityPing,
              ({ clearUnavailableTimer cm with
                connection := some conn2 } : CM).activityTimeout⟩]) =
        [⟨cm.nextTid, TKind.activityPing, cm.activityTimeout⟩]
      rw [List.filter_append, h0]
      simp [stopActivityCheck, clearUnavailableTimer]
    · show some ({ clearUnavailableTimer cm with
          connection := some conn2 } : CM).nextTid = some cm.nextTid
      simp [clearUnavailableTimer]
  · intro hcc hp
    simp only [connCallback]
    rw [resetActivityCheck_eqn_ping cm c hcc hp]
    simp
  · intro hcc hp
    simp only [connCallback]
    rw [resetActivityCheck_eqn_noping cm c hcc hp]
    simp
  · intro hfind hcc
    simp only [step]
    rw [hfind]
    simp only [fireTimer, send_event, hcc]
  · intro hfind hcc
    simp only [step]
    rw [hfind]
    simp only [fireTimer, hcc]

theorem emitted_append (l1 l2 : List Eff) :
    emitted (l1 ++ l2) = emitted l1 ++ emitted l2 := by
  simp [emitted]

theorem disconnect_liveTimers_nil (cm : CM)
    (hft : ∀ t ∈ cm.liveTimers,
      (t.kind = TKind.retry → cm.retryTimer = some t.tid) ∧
      (t.kind = TKind.unavailable → cm.unavailableTimer = some t.tid) ∧
      (t.kind = TKind.activityPing ∨ t.kind = TKind.activityPong →
        cm.activityTimer = some t.tid)) :
    (disconnect cm).cm.liveTimers = [] := by
  rw [List.eq_nil_iff_forall_not_mem]
  intro t ht
  have hstage : t ∈ (stopActivityCheck (clearUnavailableTimer
      (clearRetryTimer (abortRunnerEffs cm).1))).liveTimers := by
    simp only [disconnect, updateState_fst] at ht
    split at ht
    · exact ht
    · exact ht
  have hmem0 : t ∈ cm.liveTimers := by
    have h1 := ensureAborted_mem (ensureAborted_mem (ensureAborted_mem hstage))
    simpa using h1
  obtain ⟨hkr, hku, hka⟩ := hft t hmem0
  cases hk : t.kind with
  | retry =>
    have h3 : t ∈ (clearRetryTimer (abortRunnerEffs cm).1).liveTimers :=
      ensureAborted_mem (ensureAborted_mem hstage)
    have h4 : (abortRunnerEffs cm).1.retryTimer = some t.tid := by
      rw [abortRunnerEffs_retryTimer]
      exact hkr hk
    rw [show clearRetryTimer (abortRunnerEffs cm).1
        = ensureAborted (abortRunnerEffs cm).1.retryTimer (abortRunnerEffs cm).1
        from rfl, h4] at h3
    exact ensureAborted_not_tid h3 rfl
  | unavailable =>
    have h3 : t ∈ (clearUnavailableTimer (clearRetryTimer
        (abortRunnerEffs cm).1)).liveTimers := ensureAborted_mem hstage
    have h4 : (clearRetryTimer (abortRunnerEffs cm).1).unavailableTimer
        = some t.tid := by
      simp only [clearRetryTimer, ensureAborted_unavailableTimer,
        abortRunnerEffs_unavailableTimer]
      exact hku hk
    rw [show clearUnavailableTimer (clearRetryTimer (abortRunnerEffs cm).1)
        = ensureAborted (clearRetryTimer (abortRunnerEffs cm).1).unavailableTimer
            (clearRetryTimer (abortRunnerEffs cm).1) from rfl, h4] at h3
    exact ensureAborted_not_tid h3 rfl
  | activityPing =>
    have h4 : (clearUnavailableTimer (clearRetryTimer
        (abortRunnerEffs cm).1)).activityTimer = some t.tid := by
      simp only [clearUnavailableTimer, clearRetryTimer, ensureAborted_activityTimer,
        abortRunnerEffs_activityTimer]
      exact hka (Or.inl hk)
    rw [show stopActivityCheck (clearUnavailableTimer (clearRetryTimer
          (abortRunnerEffs cm).1))
        = ensureAborted (clearUnavailableTimer (clearRetryTimer
            (abortRunnerEffs cm).1)).activityTimer
            (clearUnavailableTimer (clearRetryTimer (abortRunnerEffs cm).1))
        from rfl, h4] at hstage
    exact ensureAborted_not_tid hstage rfl
  | activityPong =>
    have h4 : (clearUnavailableTimer (clearRetryTimer
        (abortRunnerEffs cm).1)).activityTimer = some t.tid := by
      simp only [clearUnavailableTimer, clearRetryTimer, ensureAborted_activityTimer,
        abortRunnerEffs_activityTimer]
      exact hka (Or.inr hk)
    rw [show stopActivityCheck (clearUnavailableTimer (clearRetryTimer
          (abortRunnerEffs cm).1))
        = ensureAborted (clearUnavailableTimer (clearRetryTimer
            (abortRunnerEffs cm).1)).activityTimer
            (clearUnavailableTimer (clearRetryTimer (abortRunnerEffs cm).1))
        from rfl, h4] at hstage
    exact ensureAborted_not_tid hstage rfl

theorem disconnect_runner_not_mem (cm : CM) (r : Nat) (hr : cm.runner = some r) :
    r ∉ (disconnect cm).cm.liveRunners := by
  intro hmem
  have h1 : (disconnect cm).cm.liveRunners =
      cm.liveRunners.filter (fun x => x != r) := by
    simp only [disconnect, updateState_fst]
    split <;> simp [stopActivityCheck, clearUnavailableTimer, clearRetryTimer,
      abortRunnerEffs_eqn cm r hr]
  rw [h1] at hmem
  have h2 := (List.mem_filter.1 hmem).2
  simp at h2

theorem disconnect_abort_effs (cm : CM) (r : Nat) (hr : cm.runner = some r) :
    Eff.runnerAbort r ∈ (disconnect cm).effs := by
  simp only [disconnect, updateState_fst, abortRunnerEffs_eqn cm r hr]
  split <;> simp

theorem disconnect_emitted (cm : CM) (hs : cm.state ≠ MState.disconnected) :
    emitted (disconnect cm).effs =
      [Evt.state_change cm.state MState.disconnected,
       Evt.named MState.disconnected none] := by
  have hs3 : (stopActivityCheck (clearUnavailableTimer
      (clearRetryTimer (abortRunnerEffs cm).1))).state ≠ MState.disconnected := by
    simpa [stopActivityCheck, clearUnavailableTimer, clearRetryTimer] using hs
  have habort : emitted (abortRunnerEffs cm).2 = [] := by
    cases h : cm.runner <;> simp [abortRunnerEffs, h, emitted]
  simp only [disconnect]
  split
  · rw [emitted_append, emitted_append, habort, updateState_snd_ne _ _ _ hs3]
    simp [emitted, stopActivityCheck, clearUnavailableTimer, clearRetryTimer]
  · rw [emitted_append, habort, updateState_snd_ne _ _ _ hs3]
    simp [emitted, stopActivityCheck, clearUnavailableTimer, clearRetryTimer]

/-- C8 (amended): network reachability events.  Offline while `connecting` or
`connected` performs exactly the transition sequence disconnected →
unavailable, cancels the manager's tracked timers (under the hypothesis that
every live timer is the one its field tracks), releases the connection, and
aborts the tracked in-flight attempt.  Offline in any other state is a strict
no-op.  Online while `unavailable` re-invokes `connect()`: it reaches
`connecting` and starts an attempt when the current strategy is supported and
the monitor does not report offline, reaches `failed` when the strategy is
unsupported, and leaves the manager unchanged when the monitor still reports
offline (the original claim's unconditional transition to `connecting` is
refuted by the counterexample).  Online in any other state is a strict
no-op. -/
theorem claim8_network_events (env : Env) (cm : CM)
    (hft : ∀ t ∈ cm.liveTimers,
      (t.kind = TKind.retry → cm.retryTimer = some t.tid) ∧
      (t.kind = TKind.unavailable → cm.unavailableTimer = some t.tid) ∧
      (t.kind = TKind.activityPing ∨ t.kind = TKind.activityPong →
        cm.activityTimer = some t.tid)) :
    (shouldRetry cm = true →
      (step env cm Input.offline).cm.state = MState.unavailable ∧
      (step env cm Input.offline).cm.liveTimers = [] ∧
      (step env cm Input.offline).cm.connection = none ∧
      emitted (step env cm Input.offline).effs =
        [Evt.state_change cm.state MState.disconnected,
         Evt.named MState.disconnected none,
         Evt.state_change MState.disconnected MState.unavailable,
         Evt.named MState.unavailable none] ∧
      (∀ r, cm.runner = some r →
        Eff.runnerAbort r ∈ (step env cm Input.offline).effs ∧
        r ∉ (step env cm Input.offline).cm.liveRunners)) ∧
    (shouldRetry cm = false → step env cm Input.offline = ⟨cm, [], false⟩) ∧
    (cm.state = MState.unavailable → step env cm Input.online = connect env cm) ∧
    (cm.state = MState.unavailable → cm.connection = none →
      (cm.strategySupported = false →
        (step env cm Input.online).cm.state = MState.failed) ∧
      (cm.strategySupported = true → env.isOnline = some false →
        step env cm Input.online = ⟨cm, [], false⟩) ∧
      (cm.strategySupported = true → env.isOnline ≠ some false →
        (step env cm Input.online).cm.state = MState.connecting ∧
        Eff.strategyConnect cm.nextRid 0 ∈ (step env cm Input.online).effs)) ∧
    (cm.state ≠ MState.unavailable → step env cm Input.online = ⟨cm, [], false⟩) := by
  refine ⟨?_, ?_, ?_, ?_, ?_⟩
  · intro hsr
    have hsd : cm.state ≠ MState.disconnected := by
      intro hd
      unfold shouldRetry at hsr
      rw [hd] at hsr
      simp at hsr
    have hstep : step env cm Input.offline =
        ⟨{ (disconnect cm).cm with state := MState.unavailable },
         (disconnect cm).effs ++
           (updateState MState.unavailable none (disconnect cm).cm).2, false⟩ := by
      simp only [step, offlineCallback, hsr, if_true, updateState_fst]
    have hdu : (disconnect cm).cm.state ≠ MState.unavailable := by
      rw [disconnect_state cm]
      simp
    refine ⟨?_, ?_, ?_, ?_, ?_⟩
    · rw [hstep]
    · rw [hstep]
      exact disconnect_liveTimers_nil cm hft
    · rw [hstep]
      exact disconnect_connection cm
    · rw [hstep]
      simp only [emitted_append, disconnect_emitted cm hsd,
        updateState_snd_ne _ _ _ hdu]
      simp [emitted, disconnect_state cm]
    · intro r hr
      rw [hstep]
      constructor
      · exact List.mem_append.2 (Or.inl (disconnect_abort_effs cm r hr))
      · exact disconnect_runner_not_mem cm r hr
  · intro hsr
    simp [step, offlineCallback, hsr]
  · intro hun
    simp [step, onlineCallback, hun]
  · intro hun hcc
    have hcz : cm.connection.isSome = false := by
      rw [hcc]
      rfl
    refine ⟨?_, ?_, ?_⟩
    · intro hsup
      simp [step, onlineCallback, hun, connect, hcz, hsup, updateState_fst]
    · intro hsup hoff
      have hres : step env cm Input.online =
          ⟨{ cm with state := MState.unavailable }, [], false⟩ := by
        simp [step, onlineCallback, hun, connect, hcz, hsup, hoff, updateState]
      rw [hres, show ({ cm with state := MState.unavailable } : CM) = cm from by
        rw [← hun]]
    · intro hsup hoff
      constructor
      · simp [step, onlineCallback, hun, connect, hcz, hsup, hoff,
          updateState_fst, setUnavailableTimer, newTimer]
      · simp [step, onlineCallback, hun, connect, hcz, hsup, hoff, updateState]
  · intro hne
    simp [step, onlineCallback, hne]

/-- C1 (amended): at every observable point between delivered callbacks, a
reachable manager never holds a Connection while in any state other than
`connected`.  (The converse direction of the original claim is false: after the
transport's `closed` event the Connection is released while the state remains
`connected` until the scheduled retry fires — see the counterexample.) -/
theorem claim1_connection_implies_connected (cm : CM) (h : Reachable cm)
    (hc : cm.connection.isSome = true) : cm.state = MState.connected :=
  (reachable_inv cm h).connState hc

/-- Witness for C1: a concrete reachable state holding a Connection is in
state `connected`. -/
theorem claim1_witness : cmConnected.state = MState.connected :=
  claim1_connection_implies_connected cmConnected
    (Reachable.next envT cmAfterConnect (Input.runnerResult 0 (SResult.ok hsConnected))
      (Reachable.next envT cm0 Input.pconnect (Reachable.base envT opts0) (by decide))
      (by decide))
    (by decide)

/-- C9 (amended): in every reachable state at most one unavailable-timer
instance and at most one activity/pong-timer instance are live, and a new
instance of either is armed only after the previous one was cancelled or
fired.  (The original claim is false for the retry timer: `retryIn` overwrites
`this.retryTimer` without cancelling the previous instance, so two retry
timers can be live simultaneously — see the counterexample.) -/
theorem claim9_single_timer_instances (cm : CM) (h : Reachable cm) :
    (unavailLive cm).length ≤ 1 ∧ (activityLive cm).length ≤ 1 :=
  ⟨unavailLive_le_one cm (reachable_inv cm h),
   activityLive_le_one cm (reachable_inv cm h)⟩

/-- Witness for C9 at a concrete reachable state. -/
theorem claim9_witness :
    (unavailLive cmConnected).length ≤ 1 ∧ (activityLive cmConnected).length ≤ 1 :=
  claim9_single_timer_instances cmConnected
    (Reachable.next envT cmAfterConnect (Input.runnerResult 0 (SResult.ok hsConnected))
      (Reachable.next envT cm0 Input.pconnect (Reachable.base envT opts0) (by decide))
      (by decide))

/-- C2: `connect()` is a no-op whenever a Connection is already held or the
state is already `connecting`: the manager state is returned unchanged, no
effect is produced (no strategy attempt, no timer, no event), and nothing is
thrown. -/
theorem claim2_connect_noop (env : Env) (cm : CM)
    (h : cm.connection.isSome = true ∨ cm.state = MState.connecting) :
    step env cm Input.pconnect = ⟨cm, [], false⟩ := by
  rcases h with h | h
  · simp [step, connect, h]
  · cases hc : cm.connection.isSome <;> simp [step, connect, hc, h]

/-- Witness for C2 at a concrete state holding a connection. -/
theorem claim2_witness :
    step envT cmConnected Input.pconnect = ⟨cmConnected, [], false⟩ :=
  claim2_connect_noop envT cmConnected (Or.inl (by decide))

/-- C3: `updateState(newState, data)` emits events iff `newState` differs from
the current state, and then emits exactly `state_change {previous, current}`
followed by the `newState`-named event carrying `data`; otherwise nothing is
emitted and the manager is unchanged. -/
theorem claim3_updateState_events (cm : CM) (s : MState) (d : Option Nat) :
    (s ≠ cm.state →
      updateState s d cm =
        ({ cm with state := s },
         [Eff.emit (Evt.state_change cm.state s), Eff.emit (Evt.named s d)])) ∧
    (s = cm.state → updateState s d cm = (cm, [])) := by
  constructor
  · intro h
    simp [updateState, Ne.symm h]
  · intro h
    simp [updateState, h]

/-- Witness for C3: a genuine transition emits the two events in order, and a
repeated identical update emits nothing. -/
theorem claim3_witness :
    updateState MState.connecting none cm0 =
      ({ cm0 with state := MState.connecting },
       [Eff.emit (Evt.state_change cm0.state MState.connecting),
        Eff.emit (Evt.named MState.connecting none)]) ∧
    updateState MState.initialized none cm0 = (cm0, []) :=
  ⟨(claim3_updateState_events cm0 MState.connecting none).1 (by decide),
   (claim3_updateState_events cm0 MState.initialized none).2 (by decide)⟩

/-- C10: `send` / `send_event` with no Connection held return `false`, throw
nothing and leave the manager unchanged; with a Connection held they return
exactly the boolean the Connection's own `send` / `send_event` returns. -/
theorem claim10_send_delegation (env : Env) (cm : CM) (d n2 : Nat)
    (name : String) (ch : Option Nat) :
    (cm.connection = none →
      step env cm (Input.psend d) = ⟨cm, [], false⟩ ∧
      (send cm d).1 = false ∧
      step env cm (Input.psend_event name n2 ch) = ⟨cm, [], false⟩ ∧
      (send_event cm name n2 ch).1 = false) ∧
    (∀ c, cm.connection = some c →
      (send cm d).1 = c.sendResult ∧
      step env cm (Input.psend d) = ⟨cm, [Eff.connSend d c.sendResult], false⟩ ∧
      (send_event cm name n2 ch).1 = c.sendResult ∧
      step env cm (Input.psend_event name n2 ch) =
        ⟨cm, [Eff.connSendEvent name n2 ch c.sendResult], false⟩) := by
  constructor
  · intro h
    simp [step, send, send_event, h]
  · intro c h
    simp [step, send, send_event, h]

/-- Witness for C10 with no connection held and with one held. -/
theorem claim10_witness :
    step envT cm0 (Input.psend 5) = ⟨cm0, [], false⟩ ∧
    (send cmConnected 5).1 = connA.sendResult :=
  ⟨((claim10_send_delegation envT cm0 5 0 "x" none).1 (by decide)).1,
   ((claim10_send_delegation envT cmConnected 5 0 "x" none).2 connA (by decide)).1⟩

/-- C1 counterexample: after connect, a successful handshake and a transport
`closed` event — a valid, crash-free execution — the manager is in state
`connected` while holding no Connection, refuting the claimed iff. -/
theorem claim1_cex :
    (runC1.map (fun c => (c.state, c.connection))) =
      some (MState.connected, none) := by decide

/-- C8 counterexample: the network coming online while `unavailable` ends in
state `failed` (the refreshed strategy is unsupported), not `connecting`. -/
theorem claim8_cex :
    (runC8.map (fun c => c.state)) = some MState.failed := by decide

/-- C9 counterexample: a valid, crash-free execution after which two retry
timers are simultaneously live (tids 1 and 3, both 1000 ms), refuting "at most
one live retry timer instance". -/
theorem claim9_cex :
    (runC9.map (fun c => (retryLive c).map (fun t => t.tid))) = some [1, 3] := by
  decide

/-- C5: evaluating the code at the failing input — after `connect()`, the
strategy delivers a handshake whose action tag is not in the callback table;
the dispatch `handshakeCallbacks[action](handshake)` calls `undefined` and the
exception escapes the callback. -/
theorem claim5_unknown_action_crash :
    validInput cmAfterConnect (Input.runnerResult 0 (SResult.ok hsBogus)) = true ∧
    (step envT cmAfterConnect (Input.runnerResult 0 (SResult.ok hsBogus))).crashed
      = true := by decide

/-- C6: `connect()` with no Connection held and state not `connecting`:
unsupported strategy gives `failed` with nothing started; a network monitor
answering exactly `false` gives `unavailable` with nothing started (an unknown
answer counts as online); otherwise the state becomes `connecting`, the
strategy is started with retry count 0 and the unavailable timer is armed for
`unavailableTimeout`. -/
theorem claim6_connect_paths (env : Env) (cm : CM)
    (hc : cm.connection = none) (hs : cm.state ≠ MState.connecting) :
    (cm.strategySupported = false →
      connect env cm =
        ⟨{ cm with state := MState.failed },
         (updateState MState.failed none cm).2, false⟩) ∧
    (cm.strategySupported = true → env.isOnline = some false →
      connect env cm =
        ⟨{ cm with state := MState.unavailable },
         (updateState MState.unavailable none cm).2, false⟩) ∧
    (cm.strategySupported = true → env.isOnline ≠ some false →
      connect env cm =
        ⟨{ cm with
             state := MState.connecting
             timelineSender := true
             nextRid := cm.nextRid + 1
             runner := some cm.nextRid
             liveRunners := cm.liveRunners ++ [cm.nextRid]
             nextTid := cm.nextTid + 1
             liveTimers := cm.liveTimers ++
               [⟨cm.nextTid, TKind.unavailable, cm.unavailableTimeout⟩]
             unavailableTimer := some cm.nextTid },
         [Eff.emit (Evt.state_change cm.state MState.connecting),
          Eff.emit (Evt.named MState.connecting none),
          Eff.strategyConnect cm.nextRid 0], false⟩) := by
  refine ⟨?_, ?_, ?_⟩
  · intro hsup
    simp [connect, hc, hs, hsup, updateState]
    split <;> rfl
  · intro hsup hoff
    simp [connect, hc, hs, hsup, hoff, updateState]
    split <;> rfl
  · intro hsup hon
    simp [connect, hc, hs, hsup, hon, updateState, setUnavailableTimer, newTimer,
      Ne.symm hs]

/-- Witness for C6: the first `connect()` on a fresh manager with a supported
strategy and an online network. -/
theorem claim6_witness :
    connect envT cm0 =
      ⟨{ cm0 with
           state := MState.connecting
           timelineSender := true
           nextRid := cm0.nextRid + 1
           runner := some cm0.nextRid
           liveRunners := cm0.liveRunners ++ [cm0.nextRid]
           nextTid := cm0.nextTid + 1
           liveTimers := cm0.liveTimers ++
             [⟨cm0.nextTid, TKind.unavailable, cm0.unavailableTimeout⟩]
           unavailableTimer := some cm0.nextTid },
       [Eff.emit (Evt.state_change cm0.state MState.connecting),
        Eff.emit (Evt.named MState.connecting none),
        Eff.strategyConnect cm0.nextRid 0], false⟩ :=
  ((claim6_connect_paths envT cm0 (by decide) (by decide)).2.2) (by decide) (by decide)

/-- Witness for C7: an inbound message on a ping-capable connection stops the
activity check and re-emits the message. -/
theorem claim7_witness :
    connCallback (ConnEvt.message 7) cmConnected =
      ⟨stopActivityCheck cmConnected, [Eff.emit (Evt.message 7)], false⟩ :=
  (claim7_heartbeat envT cmConnected connA connA 7 0 0 (by decide)).2.2.1
    (by decide) (by decide)

/-- Witness for C8: the network dropping while `connecting` ends in
`unavailable` with no timer left. -/
theorem claim8_witness :
    (step envT cmAfterConnect Input.offline).cm.state = MState.unavailable ∧
    (step envT cmAfterConnect Input.offline).cm.liveTimers = [] :=
  ⟨((claim8_network_events envT cmAfterConnect (by decide)).1 (by decide)).1,
   ((claim8_network_events envT cmAfterConnect (by decide)).1 (by decide)).2.1⟩

end PusherCM
